import Mathlib

/-!
# Verification of the highleveragehumans landing-page logic

Shallow embedding of the repository's reproducible logic, translated from:

* `public/service-worker.js` — cache-strategy dispatch (`determineStrategy`),
  cache cleanup on activation (`cleanupOldCaches`), the network-first
  strategy (`networkFirst`);
* `public/assets/js/forms.js` — the `FormController` field validators and
  the per-form submission lifecycle (`validateField`, `validateForm`,
  `updateFormValidation`, `setFormLoadingState`, `handleSubmit`);
* `functions/index.js` — the `/email-capture` endpoint (schema validation,
  domain blocklist, dedup, analytics logging).

JavaScript strings are modelled as `String` or `List Char`; machine-level
concerns (timers, DOM, real network) are modelled as explicit state and
oracle parameters.
-/

/-! ## Service worker: cache strategy dispatch (service-worker.js) -/

/-- The three runtime caching strategies named by `RUNTIME_STRATEGIES` in
service-worker.js (`'CacheFirst'`, `'NetworkFirst'`, `'StaleWhileRevalidate'`). -/
inductive Strategy where
  | CacheFirst : Strategy
  | NetworkFirst : Strategy
  | StaleWhileRevalidate : Strategy
deriving DecidableEq, Repr

/-- `extAux p acc` models `pathname.split('.').pop()`: scanning left to right,
a `'.'` resets the accumulator, so the result is the text after the last `'.'`
(the whole string when no `'.'` occurs), exactly as `split('.').pop()`. -/
def extAux : List Char → List Char → List Char
  | [], acc => acc
  | c :: rest, acc => if c = '.' then extAux rest [] else extAux rest (acc ++ [c])

/-- `pathname.split('.').pop().toLowerCase()` from `determineStrategy`
(service-worker.js line 215). `Char.toLower` lower-cases ASCII letters, which
matches `toLowerCase` on every extension compared against below. -/
def pathExtension (p : List Char) : List Char :=
  (extAux p []).map Char.toLower

/-- `pathname.startsWith('/api/')` (service-worker.js line 218). -/
def startsWithApi : List Char → Bool
  | '/' :: 'a' :: 'p' :: 'i' :: '/' :: _ => true
  | _ => false

/-- `pathname.endsWith('.html')` (service-worker.js line 238). -/
def endsWithHtml (p : List Char) : Bool :=
  match p.reverse with
  | 'l' :: 'm' :: 't' :: 'h' :: '.' :: _ => true
  | _ => false

/-- The image extension list of service-worker.js line 223. -/
def imageExtensions : List (List Char) :=
  [['j','p','g'], ['j','p','e','g'], ['p','n','g'], ['g','i','f'],
   ['w','e','b','p'], ['s','v','g']]

/-- The font extension list of service-worker.js line 228. -/
def fontExtensions : List (List Char) :=
  [['w','o','f','f'], ['w','o','f','f','2'], ['t','t','f'], ['e','o','t']]

/-- The static-asset extension list of service-worker.js line 233. -/
def staticExtensions : List (List Char) :=
  [['c','s','s'], ['j','s']]

/-- `determineStrategy(url, request)` from service-worker.js lines 213-244,
with the URL represented by its pathname and the request by its
`mode === 'navigate'` bit.  `RUNTIME_STRATEGIES` maps images and fonts to
`'CacheFirst'`, api to `'NetworkFirst'` and pages to `'StaleWhileRevalidate'`.
The JS test `!extension` is truthy exactly when the popped extension string
is empty. -/
def determineStrategy (p : List Char) (isNavigate : Bool) : Strategy :=
  if startsWithApi p then Strategy.NetworkFirst
  else if imageExtensions.contains (pathExtension p) then Strategy.CacheFirst
  else if fontExtensions.contains (pathExtension p) then Strategy.CacheFirst
  else if staticExtensions.contains (pathExtension p) then Strategy.CacheFirst
  else if isNavigate || endsWithHtml p || (pathExtension p).isEmpty then
    Strategy.StaleWhileRevalidate
  else Strategy.NetworkFirst

/-- The classification exactly as the spec sentence words it: same priority
chain, but the stale-while-revalidate bucket is "a navigation request or an
extension-less pathname", reading "extension-less" as a pathname containing
no `'.'` at all.  Defined from the spec's words, to be compared with
`determineStrategy`. -/
def specClaimStrategy (p : List Char) (isNavigate : Bool) : Strategy :=
  if startsWithApi p then Strategy.NetworkFirst
  else if imageExtensions.contains (pathExtension p) then Strategy.CacheFirst
  else if fontExtensions.contains (pathExtension p) then Strategy.CacheFirst
  else if staticExtensions.contains (pathExtension p) then Strategy.CacheFirst
  else if isNavigate || !(p.contains '.') then Strategy.StaleWhileRevalidate
  else Strategy.NetworkFirst

/-- `true` iff the path's final character is `'.'`. -/
def endsWithDot : List Char → Bool
  | [] => false
  | [c] => c == '.'
  | _ :: c :: rest => endsWithDot (c :: rest)

/-- The amended classification: the stale-while-revalidate bucket is "a
navigation request, a pathname ending in `.html`, or a pathname whose text
after the last `'.'` is empty (it is empty or ends in `'.'`)"; everything
else, including extension-less pathnames fetched outside navigation, gets
network-first. -/
def specAmendedStrategy (p : List Char) (isNavigate : Bool) : Strategy :=
  if startsWithApi p then Strategy.NetworkFirst
  else if imageExtensions.contains (pathExtension p) then Strategy.CacheFirst
  else if fontExtensions.contains (pathExtension p) then Strategy.CacheFirst
  else if staticExtensions.contains (pathExtension p) then Strategy.CacheFirst
  else if isNavigate || endsWithHtml p || (p.isEmpty || endsWithDot p) then
    Strategy.StaleWhileRevalidate
  else Strategy.NetworkFirst

lemma extAux_eq_nil_iff (p : List Char) :
    ∀ acc, (extAux p acc = [] ↔ (p = [] ∧ acc = []) ∨ endsWithDot p = true) := by
  induction p with
  | nil => intro acc; simp [extAux, endsWithDot]
  | cons c rest ih =>
    intro acc
    by_cases hc : c = '.'
    · rw [show extAux (c :: rest) acc = extAux rest [] by simp [extAux, hc]]
      rw [ih []]
      cases rest with
      | nil => simp [endsWithDot, hc]
      | cons d tl => simp [endsWithDot]
    · rw [show extAux (c :: rest) acc = extAux rest (acc ++ [c]) by simp [extAux, hc]]
      rw [ih (acc ++ [c])]
      cases rest with
      | nil => simp [endsWithDot, hc]
      | cons d tl => simp [endsWithDot]

lemma pathExtension_isEmpty (p : List Char) :
    (pathExtension p).isEmpty = (p.isEmpty || endsWithDot p) := by
  rw [Bool.eq_iff_iff]
  simp only [pathExtension, List.isEmpty_iff, List.map_eq_nil_iff, Bool.or_eq_true]
  rw [extAux_eq_nil_iff p []]
  simp

/-- Claim C2 counterexample: for the extension-less pathname `/about` fetched
outside navigation, the code picks network-first while the spec's
classification picks stale-while-revalidate, so the two disagree. -/
theorem determineStrategy_claim_counterexample :
    ¬ (∀ p isNavigate, determineStrategy p isNavigate = specClaimStrategy p isNavigate) := by
  intro h
  exact absurd (h ['/','a','b','o','u','t'] false) (by decide)

/-- Claim C2 (amended): the dispatcher classifies by priority order:
`/api/` prefix gets network-first; image, font and `css`/`js` extensions get
cache-first; a navigation request, a pathname ending in `.html`, or a
pathname whose text after the last `'.'` is empty gets stale-while-revalidate;
every other request (including extension-less pathnames fetched outside
navigation) gets network-first. -/
theorem determineStrategy_amended (p : List Char) (isNavigate : Bool) :
    determineStrategy p isNavigate = specAmendedStrategy p isNavigate := by
  simp only [determineStrategy, specAmendedStrategy, pathExtension_isEmpty]

/-! ## Service worker: cache storage, activation cleanup, network-first -/

/-- A cached HTTP response; `ok` models `response.ok` (2xx) and `id`
distinguishes response bodies. -/
structure SWResponse where
  ok : Bool
  id : Nat
deriving DecidableEq, Repr

/-- The platform cache storage: a list of named cache stores, each a list of
entries keyed by request URL. -/
abbrev CacheStorage : Type := List (String × List (String × SWResponse))

/-- `CACHE_NAME` (service-worker.js line 6). -/
def CACHE_NAME : String := "high-leverage-humans-v1.0.0"

/-- `RUNTIME_CACHE` (service-worker.js line 7). -/
def RUNTIME_CACHE : String := "runtime-cache-v1"

/-- `caches.delete(name)`: removes the store with the given name. -/
def deleteCache (storage : CacheStorage) (name : String) : CacheStorage :=
  storage.filter (fun s => s.1 != name)

/-- `cleanupOldCaches()` (service-worker.js lines 363-375): collect every
cache name that is neither `CACHE_NAME` nor `RUNTIME_CACHE`, then delete each
of them. -/
def cleanupOldCaches (storage : CacheStorage) : CacheStorage :=
  let oldCaches := (storage.map Prod.fst).filter
    (fun name => name != CACHE_NAME && name != RUNTIME_CACHE)
  oldCaches.foldl deleteCache storage

lemma foldl_deleteCache (names : List String) :
    ∀ storage : CacheStorage,
      names.foldl deleteCache storage
        = storage.filter (fun s => !(names.contains s.1)) := by
  induction names with
  | nil =>
    intro storage
    simp [List.foldl, deleteCache, List.filter_eq_self]
  | cons n ns ih =>
    intro storage
    rw [List.foldl_cons, ih (deleteCache storage n)]
    unfold deleteCache
    rw [List.filter_filter]
    apply List.filter_congr
    intro s _
    simp only [List.contains_cons, Bool.not_or, bne]
    exact Bool.and_comm _ _

/-- Claim C4: cleanup on activation keeps exactly the stores named
`CACHE_NAME` or `RUNTIME_CACHE`, with their entries unchanged, and deletes
every other store.  (The `activate` listener runs `cleanupOldCaches`
together with `clients.claim()`, which does not touch cache storage.) -/
theorem cleanupOldCaches_spec (storage : CacheStorage) :
    cleanupOldCaches storage
      = storage.filter (fun s => s.1 == CACHE_NAME || s.1 == RUNTIME_CACHE) := by
  unfold cleanupOldCaches
  rw [foldl_deleteCache]
  apply List.filter_congr
  intro s hs
  rw [Bool.eq_iff_iff]
  by_cases h1 : s.1 = CACHE_NAME
  · simp [List.mem_filter, List.mem_map, h1, bne]
  · by_cases h2 : s.1 = RUNTIME_CACHE
    · simp [List.mem_filter, List.mem_map, h2, bne]
    · simp [List.mem_filter, List.mem_map, h1, h2, bne]
      exact ⟨s.2, by simpa using hs⟩

/-- `cache.put(request, response)` on one store's entry list: overwrite the
entry for the request if present, otherwise append it. -/
def cachePutEntries (entries : List (String × SWResponse)) (req : String)
    (r : SWResponse) : List (String × SWResponse) :=
  if entries.any (fun e => e.1 == req) then
    entries.map (fun e => if e.1 == req then (req, r) else e)
  else entries ++ [(req, r)]

/-- `caches.open(RUNTIME_CACHE)` followed by `cache.put(request, clone)`:
opening creates the runtime store when missing.  The clone carries the same
content, so it is modelled by the response value itself. -/
def putRuntimeCache (storage : CacheStorage) (req : String) (r : SWResponse) :
    CacheStorage :=
  if storage.any (fun s => s.1 == RUNTIME_CACHE) then
    storage.map (fun s =>
      if s.1 == RUNTIME_CACHE then (s.1, cachePutEntries s.2 req r) else s)
  else storage ++ [(RUNTIME_CACHE, cachePutEntries [] req r)]

/-- `caches.match(request)`: scan the stores in order and return the first
entry cached under the request URL. -/
def cachesMatch (storage : CacheStorage) (req : String) : Option SWResponse :=
  match storage with
  | [] => none
  | s :: rest =>
    match s.2.find? (fun e => e.1 == req) with
    | some e => some e.2
    | none => cachesMatch rest req

/-- `networkFirst(request)` (service-worker.js lines 288-307).  The network
fetch is an oracle argument: `Except.ok r` models `await fetch(request)`
resolving with response `r`, `Except.error e` models the fetch throwing `e`.
On a resolved response the clone is stored only when `response.ok`; on a
throw, fall back to `caches.match` and re-throw when nothing is cached.
Returns the result delivered to the caller and the updated cache storage. -/
def networkFirst (fetchResult : Except Nat SWResponse) (storage : CacheStorage)
    (req : String) : Except Nat SWResponse × CacheStorage :=
  match fetchResult with
  | Except.ok r =>
    if r.ok then (Except.ok r, putRuntimeCache storage req r)
    else (Except.ok r, storage)
  | Except.error e =>
    match cachesMatch storage req with
    | some c => (Except.ok c, storage)
    | none => (Except.error e, storage)

/-- Claim C5 counterexample: a fetch that resolves with a non-2xx response
(`ok = false`) is returned to the caller but *not* stored, so "on a
successful fetch the response is stored and returned" fails: with an empty
cache storage the claim demands the entry be present afterwards. -/
theorem networkFirst_claim_counterexample :
    ¬ (∀ (storage : CacheStorage) (req : String) (r : SWResponse),
        networkFirst (Except.ok r) storage req
          = (Except.ok r, putRuntimeCache storage req r)) := by
  intro h
  have hstore := congrArg Prod.snd (h [] "/api/data" { ok := false, id := 0 })
  simp [networkFirst, putRuntimeCache, cachePutEntries] at hstore

/-- Claim C5 (amended): for every request handled by the network-first
strategy, a fetch resolving with an `ok` (2xx) response is stored (a clone)
and returned; a fetch resolving with a non-ok response is returned without
being stored; if the fetch throws, the previously cached entry for the
request is returned when one exists, and otherwise the failure is
propagated to the caller. -/
theorem networkFirst_amended (storage : CacheStorage) (req : String)
    (r c : SWResponse) (e : Nat) :
    (r.ok = true →
      networkFirst (Except.ok r) storage req
        = (Except.ok r, putRuntimeCache storage req r)) ∧
    (r.ok = false →
      networkFirst (Except.ok r) storage req = (Except.ok r, storage)) ∧
    (cachesMatch storage req = some c →
      networkFirst (Except.error e) storage req = (Except.ok c, storage)) ∧
    (cachesMatch storage req = none →
      networkFirst (Except.error e) storage req = (Except.error e, storage)) := by
  refine ⟨fun hok => ?_, fun hbad => ?_, fun hhit => ?_, fun hmiss => ?_⟩
  · simp [networkFirst, hok]
  · simp [networkFirst, hbad]
  · simp [networkFirst, hhit]
  · simp [networkFirst, hmiss]

/-- Witness for `networkFirst_amended`, evaluating each branch at concrete
inputs: an ok response is stored, a non-ok response is not, a throw with a
cache hit returns the hit, a throw with a miss propagates the error. -/
theorem networkFirst_amended_witness :
    (SWResponse.mk true 1).ok = true ∧
    networkFirst (Except.ok (SWResponse.mk true 1)) [] "/api/data"
      = (Except.ok (SWResponse.mk true 1),
         [(RUNTIME_CACHE, [("/api/data", SWResponse.mk true 1)])]) ∧
    (SWResponse.mk false 2).ok = false ∧
    networkFirst (Except.ok (SWResponse.mk false 2)) [] "/api/data"
      = (Except.ok (SWResponse.mk false 2), []) ∧
    cachesMatch [(RUNTIME_CACHE, [("/api/data", SWResponse.mk true 3)])] "/api/data"
      = some (SWResponse.mk true 3) ∧
    networkFirst (Except.error 7)
        [(RUNTIME_CACHE, [("/api/data", SWResponse.mk true 3)])] "/api/data"
      = (Except.ok (SWResponse.mk true 3),
         [(RUNTIME_CACHE, [("/api/data", SWResponse.mk true 3)])]) ∧
    cachesMatch [] "/api/data" = none ∧
    networkFirst (Except.error 7) ([] : CacheStorage) "/api/data"
      = (Except.error 7, []) := by
  have h1 := (networkFirst_amended [] "/api/data" (SWResponse.mk true 1)
    (SWResponse.mk true 1) 7).1 rfl
  have h2 := (networkFirst_amended [] "/api/data" (SWResponse.mk false 2)
    (SWResponse.mk false 2) 7).2.1 rfl
  have h3 := (networkFirst_amended
    [(RUNTIME_CACHE, [("/api/data", SWResponse.mk true 3)])] "/api/data"
    (SWResponse.mk true 3) (SWResponse.mk true 3) 7).2.2.1 rfl
  have h4 := (networkFirst_amended [] "/api/data" (SWResponse.mk true 1)
    (SWResponse.mk true 1) 7).2.2.2 rfl
  exact ⟨rfl, h1.trans rfl, rfl, h2, rfl, h3, rfl, h4⟩

/-! ## Form controller: fields, validation, submission (forms.js) -/

/-- One form field's validation state (`fieldConfig` in forms.js lines
142-149).  `validatorResults` holds, for each validator name assigned via
`data-validators`, whether that validator passes the field's current value
(an unknown validator name is skipped by `validateField`, i.e. always
passes, so its entry is `true`).  `isValid` is the stored
`fieldConfig.isValid`, initialised `false`. -/
structure FormField where
  validatorResults : List Bool
  isValid : Bool
deriving DecidableEq, Repr

/-- `validateField(fieldConfig)` (forms.js lines 219-250): run the assigned
validators against the current value and store the conjunction in
`fieldConfig.isValid` (a field with no validators becomes valid). -/
def validateFieldStep (fl : FormField) : FormField :=
  { fl with isValid := fl.validatorResults.all (fun b => b) }

/-- A form's session state (`formConfig`): its fields, the stored
`formConfig.isValid`, the `loadingState` flag, and the submit button's
`disabled` property. -/
structure FormState where
  fields : List FormField
  formValid : Bool
  loading : Bool
  buttonDisabled : Bool
deriving DecidableEq, Repr

/-- `updateFormValidation(formConfig)` (forms.js lines 277-288):
`allFieldsValid` exempts fields with no assigned validators; the submit
button is disabled unless all fields are valid and the form is not
loading. -/
def updateFormValidation (f : FormState) : FormState :=
  let allFieldsValid :=
    f.fields.all (fun fl => fl.isValid || fl.validatorResults.isEmpty)
  { f with
    formValid := allFieldsValid
    buttonDisabled := !allFieldsValid || f.loading }

/-- `validateForm(formConfig)` (forms.js lines 293-304): re-validate every
field, store the overall result in `formConfig.isValid` and return it. -/
def validateForm (f : FormState) : FormState × Bool :=
  let fields' := f.fields.map validateFieldStep
  let ok := fields'.all (fun fl => fl.isValid)
  ({ f with fields := fields', formValid := ok }, ok)

/-- `setFormLoadingState(formConfig, isLoading)` (forms.js lines 346-365):
sets `loadingState` and `submitButton.disabled = isLoading`
(unconditionally).  The controller-level `this.isSubmitting` it also writes
is threaded explicitly at each call site. -/
def setFormLoadingState (f : FormState) (isLoading : Bool) : FormState :=
  { f with loading := isLoading, buttonDisabled := isLoading }

/-- What a single `handleSubmit` call did: whether the HTTP submission was
issued, which field index received focus (`focusFirstInvalidField`), and
whether `validateForm` ran. -/
structure SubmitOutcome where
  networkIssued : Bool
  focusTarget : Option Nat
  validated : Bool
deriving DecidableEq, Repr

/-- The outcome of an attempt dropped by the in-flight guard. -/
def droppedOutcome : SubmitOutcome :=
  { networkIssued := false, focusTarget := none, validated := false }

/-- `focusFirstInvalidField(formConfig)` (forms.js lines 549-560): the index
of the first field whose stored `isValid` is false. -/
def focusFirstInvalidField (f : FormState) : Option Nat :=
  f.fields.findIdx? (fun fl => !fl.isValid)

/-- `handleSubmit(event, formConfig)` (forms.js lines 309-341), up to the
point the network request is issued.  `isSubmitting` is the controller-wide
`this.isSubmitting` flag; the result triple is the new `this.isSubmitting`,
the new form state, and the outcome.  Guard order is the source's: the
in-flight check precedes validation; on validation failure focus moves to
the first invalid field and no request is made; otherwise the loading state
is set and the request goes out. -/
def handleSubmit (isSubmitting : Bool) (f : FormState) :
    Bool × FormState × SubmitOutcome :=
  if isSubmitting || f.loading then (isSubmitting, f, droppedOutcome)
  else
    let v := validateForm f
    if v.2 then
      (true, setFormLoadingState v.1 true,
       { networkIssued := true, focusTarget := none, validated := true })
    else
      (isSubmitting, v.1,
       { networkIssued := false, focusTarget := focusFirstInvalidField v.1,
         validated := true })

/-- A form has a field whose assigned validators reject its current value. -/
def hasInvalidField (f : FormState) : Prop :=
  ∃ fl ∈ f.fields, fl.validatorResults.all (fun b => b) = false

/-- Claim C3 counterexample: a submit attempt on a form whose field is
invalid but whose submission is still in flight (`loadingState = true`) is
dropped by the in-flight guard before validation, so no focus move happens,
contradicting the claim's unconditional "focus is moved to the first
invalid field". -/
theorem handleSubmit_invalid_counterexample :
    ¬ (∀ (isSubmitting : Bool) (f : FormState), hasInvalidField f →
        (handleSubmit isSubmitting f).2.2.networkIssued = false ∧
        ((handleSubmit isSubmitting f).2.2.focusTarget).isSome = true) := by
  intro h
  have := (h false
    { fields := [{ validatorResults := [false], isValid := false }],
      formValid := false, loading := true, buttonDisabled := true }
    (by exact ⟨{ validatorResults := [false], isValid := false }, by decide, by decide⟩)).2
  simp [handleSubmit, droppedOutcome] at this

lemma validateForm_all_false {f : FormState} (h : hasInvalidField f) :
    (f.fields.map validateFieldStep).all (fun fl => fl.isValid) = false := by
  obtain ⟨fl, hmem, hfl⟩ := h
  rw [List.all_eq_false]
  exact ⟨validateFieldStep fl, List.mem_map_of_mem _ hmem,
    by simp [validateFieldStep, hfl]⟩

/-- Claim C3 (amended): on a submit attempt with at least one field invalid
under its assigned validators, no network request is issued; and when the
attempt is not dropped by the in-flight guard (neither the controller-wide
`isSubmitting` flag nor the form's `loadingState` is set), focus moves to
the first invalid field. -/
theorem handleSubmit_invalid_amended (isSubmitting : Bool) (f : FormState)
    (h : hasInvalidField f) :
    (handleSubmit isSubmitting f).2.2.networkIssued = false ∧
    (isSubmitting = false → f.loading = false →
      (handleSubmit isSubmitting f).2.2.focusTarget
          = (f.fields.map validateFieldStep).findIdx? (fun fl => !fl.isValid) ∧
        ((f.fields.map validateFieldStep).findIdx? (fun fl => !fl.isValid)).isSome
          = true) := by
  have hv := validateForm_all_false h
  have hsome :
      ((f.fields.map validateFieldStep).findIdx? (fun fl => !fl.isValid)).isSome
        = true := by
    rw [List.findIdx?_isSome, List.any_eq_true]
    obtain ⟨fl, hmem, hfl⟩ := List.all_eq_false.mp hv
    exact ⟨fl, hmem, by simpa using hfl⟩
  by_cases hg : (isSubmitting || f.loading) = true
  · refine ⟨by simp [handleSubmit, hg, droppedOutcome], fun h1 h2 => ?_⟩
    rw [h1, h2] at hg
    exact absurd hg (by decide)
  · have hg' : (isSubmitting || f.loading) = false := by
      simpa using hg
    refine ⟨?_, fun _ _ => ⟨?_, hsome⟩⟩
    · simp [handleSubmit, hg', validateForm, hv]
    · simp [handleSubmit, hg', validateForm, hv, focusFirstInvalidField]

/-- Witness for `handleSubmit_invalid_amended`: a one-field form whose
single validator rejects the value, not loading; the attempt issues no
request and focuses field 0. -/
theorem handleSubmit_invalid_amended_witness :
    hasInvalidField
      { fields := [{ validatorResults := [false], isValid := false }],
        formValid := false, loading := false, buttonDisabled := true } ∧
    ((handleSubmit false
        { fields := [{ validatorResults := [false], isValid := false }],
          formValid := false, loading := false,
          buttonDisabled := true }).2.2.networkIssued = false ∧
      (false = false → FormState.loading
          { fields := [{ validatorResults := [false], isValid := false }],
            formValid := false, loading := false, buttonDisabled := true }
          = false →
        (handleSubmit false
            { fields := [{ validatorResults := [false], isValid := false }],
              formValid := false, loading := false,
              buttonDisabled := true }).2.2.focusTarget
            = (List.map validateFieldStep
                [{ validatorResults := [false], isValid := false }]).findIdx?
                (fun fl => !fl.isValid) ∧
          ((List.map validateFieldStep
              [{ validatorResults := [false], isValid := false }]).findIdx?
              (fun fl => !fl.isValid)).isSome = true)) := by
  refine ⟨⟨{ validatorResults := [false], isValid := false }, by decide, by decide⟩,
    handleSubmit_invalid_amended false _
      ⟨{ validatorResults := [false], isValid := false }, by decide, by decide⟩⟩

/-- Claim C7: a submit attempt made while the controller-wide `isSubmitting`
flag or the form's `loadingState` is set returns immediately: no validation
runs, the state is unchanged, and no network request is issued. -/
theorem handleSubmit_inflight_drop (isSubmitting : Bool) (f : FormState)
    (h : isSubmitting = true ∨ f.loading = true) :
    handleSubmit isSubmitting f = (isSubmitting, f, droppedOutcome) := by
  rcases h with h | h <;> simp [handleSubmit, h]

/-- Witness for `handleSubmit_inflight_drop`: with the global flag set, a
valid, non-loading form's submit attempt is dropped unchanged. -/
theorem handleSubmit_inflight_drop_witness :
    (true = true ∨ FormState.loading
        { fields := [{ validatorResults := [true], isValid := true }],
          formValid := true, loading := false, buttonDisabled := false }
        = true) ∧
    handleSubmit true
        { fields := [{ validatorResults := [true], isValid := true }],
          formValid := true, loading := false, buttonDisabled := false }
      = (true,
         { fields := [{ validatorResults := [true], isValid := true }],
           formValid := true, loading := false, buttonDisabled := false },
         droppedOutcome) :=
  ⟨Or.inl rfl, handleSubmit_inflight_drop true _ (Or.inl rfl)⟩

/-- Claim C10: the in-flight lock is controller-global.  When form A's
submission proceeds, it sets the shared `this.isSubmitting` flag, and a
subsequent submit attempt on any other form B is dropped even though B's
own `loadingState` is false. -/
theorem submitLock_global (fA fB : FormState)
    (hA1 : fA.loading = false)
    (hA2 : (fA.fields.map validateFieldStep).all (fun fl => fl.isValid) = true)
    (hB : fB.loading = false) :
    (handleSubmit false fA).1 = true ∧
    (handleSubmit false fA).2.2.networkIssued = true ∧
    handleSubmit (handleSubmit false fA).1 fB = (true, fB, droppedOutcome) := by
  have h1 : (handleSubmit false fA).1 = true := by
    simp [handleSubmit, hA1, validateForm, hA2]
  refine ⟨h1, ?_, ?_⟩
  · simp [handleSubmit, hA1, validateForm, hA2]
  · rw [h1]
    simp [handleSubmit]

/-- Witness for `submitLock_global`: two concrete one-field forms; form A's
submission locks the controller and form B's attempt is dropped. -/
theorem submitLock_global_witness :
    FormState.loading
        { fields := [{ validatorResults := [true], isValid := false }],
          formValid := false, loading := false, buttonDisabled := false }
      = false ∧
    (List.map validateFieldStep
        [{ validatorResults := [true], isValid := false }]).all
        (fun fl => fl.isValid) = true ∧
    FormState.loading
        { fields := [{ validatorResults := [true], isValid := true }],
          formValid := true, loading := false, buttonDisabled := false }
      = false ∧
    ((handleSubmit false
        { fields := [{ validatorResults := [true], isValid := false }],
          formValid := false, loading := false, buttonDisabled := false }).1
        = true ∧
      (handleSubmit false
        { fields := [{ validatorResults := [true], isValid := false }],
          formValid := false, loading := false,
          buttonDisabled := false }).2.2.networkIssued = true ∧
      handleSubmit
          (handleSubmit false
            { fields := [{ validatorResults := [true], isValid := false }],
              formValid := false, loading := false, buttonDisabled := false }).1
          { fields := [{ validatorResults := [true], isValid := true }],
            formValid := true, loading := false, buttonDisabled := false }
        = (true,
           { fields := [{ validatorResults := [true], isValid := true }],
             formValid := true, loading := false, buttonDisabled := false },
           droppedOutcome)) :=
  ⟨rfl, by decide, rfl, submitLock_global _ _ rfl (by decide) rfl⟩

/-- Replace the element at index `i` (out-of-range indices leave the list
unchanged), modelling `formConfig.fields.get(name)` followed by mutation. -/
def modifyAt {α : Type} : List α → Nat → (α → α) → List α
  | [], _, _ => []
  | a :: t, 0, g => g a :: t
  | a :: t, Nat.succ n, g => a :: modifyAt t n g

/-- The form state right after `initializeForm` discovers the form: every
`fieldConfig.isValid` starts `false` (forms.js line 146), nothing is
loading.  `initializeForm` never calls `updateFormValidation`, so the
button's initial `disabled` state comes from the markup; it is taken as
`true` (disabled), the reading most favourable to the claimed invariant. -/
def initForm (fs : List (List Bool)) : FormState :=
  { fields := fs.map (fun rs => { validatorResults := rs, isValid := false })
    formValid := false
    loading := false
    buttonDisabled := true }

/-- A page session: the controller-wide `this.isSubmitting` flag plus one
form's state. -/
structure SessionState where
  ctrl : Bool
  form : FormState
deriving DecidableEq, Repr

/-- The `blur` handler (forms.js lines 200-203) after the user's edits have
changed field `i`'s validator outcomes to `rs`: `validateField(fieldConfig)`
then `updateFormValidation(formConfig)`.  (The debounced `input` handler
runs the same two calls.) -/
def blurStep (f : FormState) (i : Nat) (rs : List Bool) : FormState :=
  updateFormValidation
    { f with
      fields := modifyAt f.fields i
        (fun fl => validateFieldStep { fl with validatorResults := rs }) }

/-- A submit attempt as a session transition. -/
def submitStep (s : SessionState) : SessionState :=
  { ctrl := (handleSubmit s.ctrl s.form).1, form := (handleSubmit s.ctrl s.form).2.1 }

/-- The reachable session states: initial discovery, blur/debounce
revalidation of a field whose value the user edited (preserving its number
of assigned validators), submit attempts, and completion of an in-flight
submission (`handleSubmit`'s `finally` block, which runs
`setFormLoadingState(formConfig, false)` and clears `this.isSubmitting`). -/
inductive Reach : SessionState → Prop where
  | init (fs : List (List Bool)) : Reach { ctrl := false, form := initForm fs }
  | editBlur (s : SessionState) (i : Nat) (rs : List Bool) (h : Reach s)
      (hlen : (s.form.fields.get? i).map (fun fl => fl.validatorResults.length)
        = some rs.length) :
      Reach { ctrl := s.ctrl, form := blurStep s.form i rs }
  | submit (s : SessionState) (h : Reach s) : Reach (submitStep s)
  | complete (s : SessionState) (h : Reach s) (hl : s.form.loading = true) :
      Reach { ctrl := false, form := setFormLoadingState s.form false }

/-- Claim C6 counterexample: a reachable state in which the submit button is
enabled although a validator-bearing field reports invalid.  Trace: the
field becomes valid (button enabled), submit starts (loading), the user
edits the field to an invalid value mid-flight (blur revalidates), and the
submission's `finally` runs `setFormLoadingState(formConfig, false)`, which
unconditionally re-enables the button. -/
theorem submitEnabled_invariant_counterexample :
    ∃ s : SessionState, Reach s ∧ s.form.buttonDisabled = false ∧
      ∃ fl ∈ s.form.fields, fl.validatorResults ≠ [] ∧ fl.isValid = false := by
  refine ⟨_, Reach.complete _ (Reach.editBlur _ 0 [false]
      (Reach.submit _ (Reach.editBlur _ 0 [true] (Reach.init [[false]]) (by decide)))
      (by decide)) (by decide), by decide, by decide⟩

/-- Claim C6 (amended): whenever the button state is the one computed by
`updateFormValidation`, the submit button is enabled only if every field
with at least one assigned validator currently reports valid and the form
is not loading.  (Outside those updates the button can be stale: the
end-of-submission `setFormLoadingState(formConfig, false)` re-enables it
unconditionally, and submit-time revalidation does not refresh it.) -/
theorem updateFormValidation_enables_only_valid (f : FormState)
    (h : (updateFormValidation f).buttonDisabled = false) :
    (∀ fl ∈ f.fields, fl.validatorResults ≠ [] → fl.isValid = true) ∧
      f.loading = false := by
  have h' : (!(f.fields.all (fun fl => fl.isValid || fl.validatorResults.isEmpty))
      || f.loading) = false := h
  rw [Bool.or_eq_false_iff] at h'
  obtain ⟨ha, hl⟩ := h'
  have hall : f.fields.all (fun fl => fl.isValid || fl.validatorResults.isEmpty)
      = true := by
    cases hx : f.fields.all (fun fl => fl.isValid || fl.validatorResults.isEmpty)
    · rw [hx] at ha
      exact absurd ha (by decide)
    · rfl
  refine ⟨fun fl hmem hne => ?_, hl⟩
  have hor := List.all_eq_true.mp hall fl hmem
  rcases Bool.or_eq_true_iff.mp hor with hv | he
  · exact hv
  · exact absurd (List.isEmpty_iff.mp he) hne

/-- Witness for `updateFormValidation_enables_only_valid`: a form with one
valid validator-bearing field, not loading; the update enables the button
and indeed every validator-bearing field is valid. -/
theorem updateFormValidation_enables_only_valid_witness :
    (updateFormValidation
        { fields := [{ validatorResults := [true], isValid := true }],
          formValid := false, loading := false,
          buttonDisabled := true }).buttonDisabled = false ∧
    ((∀ fl ∈ FormState.fields
        { fields := [{ validatorResults := [true], isValid := true }],
          formValid := false, loading := false, buttonDisabled := true },
        fl.validatorResults ≠ [] → fl.isValid = true) ∧
      FormState.loading
        { fields := [{ validatorResults := [true], isValid := true }],
          formValid := false, loading := false, buttonDisabled := true }
        = false) :=
  ⟨by decide, updateFormValidation_enables_only_valid _ (by decide)⟩

/-! ## Form controller: the email field validator (forms.js lines 52-60) -/

/-- The character class `[^\s@]` of the email regex: any character that is
neither whitespace nor `'@'`.  (`Char.isWhitespace` covers the ASCII
whitespace the relevant inputs contain.) -/
def isAtomChar (c : Char) : Bool :=
  !c.isWhitespace && c != '@'

/-- The email shape regex `/^[^\s@]+@[^\s@]+\.[^\s@]+$/` (forms.js line 56)
as its language: the whole string decomposes as one-or-more atom
characters, `'@'`, one-or-more atom characters, `'.'`, one-or-more atom
characters.  (Since `'.'` is itself an atom character, `b` and `c` absorb
any extra dots.) -/
def emailRegexAccepts (s : List Char) : Prop :=
  ∃ a b c : List Char,
    s = a ++ '@' :: (b ++ '.' :: c) ∧ a ≠ [] ∧ b ≠ [] ∧ c ≠ [] ∧
    a.all isAtomChar = true ∧ b.all isAtomChar = true ∧ c.all isAtomChar = true

/-- `validators.get('email').validate(value)` (forms.js lines 54-60): the
validator returns exactly `emailRegex.test(value)`. -/
def emailValidatorAccepts (value : List Char) : Prop :=
  emailRegexAccepts value

/-- Claim C8: every string matching the shape regex is accepted by the email
validator; every string without an `'@'`, and every string with nothing
after its `'@'` (it ends in `'@'`), is rejected. -/
theorem emailValidator_spec (s : List Char) :
    (emailRegexAccepts s → emailValidatorAccepts s) ∧
    ('@' ∉ s → ¬ emailValidatorAccepts s) ∧
    (∀ a : List Char, s = a ++ ['@'] → ¬ emailValidatorAccepts s) := by
  refine ⟨fun h => h, fun hat hacc => ?_, fun a hend hacc => ?_⟩
  · obtain ⟨a, b, c, heq, -, -, -, -, -, -⟩ := hacc
    apply hat
    rw [heq]
    simp
  · obtain ⟨a', b, c, heq, -, -, hc, -, -, hcall⟩ := hacc
    obtain ⟨d, c', hc'⟩ : ∃ d c'', c.reverse = d :: c'' := by
      cases hcr : c.reverse with
      | nil => exact absurd (by simpa using congrArg List.reverse hcr) hc
      | cons d tl => exact ⟨d, tl, rfl⟩
    have h1 : s.reverse = '@' :: a.reverse := by
      rw [hend]
      simp
    have h2 : s.reverse.head? = some d := by
      rw [heq]
      simp [hc']
    rw [h1] at h2
    have hd : d = '@' := by
      simpa using h2.symm
    have hdc : d ∈ c := by
      rw [← List.mem_reverse, hc']
      exact List.mem_cons_self d c'
    have := List.all_eq_true.mp hcall d hdc
    rw [hd] at this
    exact absurd this (by decide)

/-- Witness for `emailValidator_spec`: `a@b.c` matches and is accepted;
`abc` has no `'@'` and is rejected; `a@` ends in `'@'` and is rejected. -/
theorem emailValidator_spec_witness :
    emailRegexAccepts ['a','@','b','.','c'] ∧
    emailValidatorAccepts ['a','@','b','.','c'] ∧
    ('@' ∉ ['a','b','c']) ∧ ¬ emailValidatorAccepts ['a','b','c'] ∧
    (['a','@'] = ['a'] ++ ['@']) ∧ ¬ emailValidatorAccepts ['a','@'] := by
  have hacc : emailRegexAccepts ['a','@','b','.','c'] :=
    ⟨['a'], ['b'], ['c'], rfl, by decide, by decide, by decide,
     by decide, by decide, by decide⟩
  exact ⟨hacc, (emailValidator_spec _).1 hacc, by decide,
    (emailValidator_spec ['a','b','c']).2.1 (by decide), rfl,
    (emailValidator_spec ['a','@']).2.2 ['a'] rfl⟩

/-! ## Email capture endpoint (functions/index.js) -/

/-- JavaScript `string.split(sep)` on a character list: `"a@" → ["a",""]`,
`"@b" → ["","b"]`, `"abc" → ["abc"]`. -/
def jsSplitAux (sep : Char) : List Char → List (List Char)
  | [] => [[]]
  | c :: rest =>
    let r := jsSplitAux sep rest
    if c = sep then [] :: r
    else
      match r with
      | [] => [[c]]
      | h :: t => (c :: h) :: t

/-- The disposable-domain blocklist (functions/index.js lines 107-114). -/
def disposableDomains : List String :=
  ["10minutemail.com", "guerrillamail.com", "mailinator.com",
   "temp-mail.org", "throwaway.email", "yopmail.com"]

/-- `validateEmailDomain(email)` (functions/index.js lines 102-117):
`email.split('@')[1]` is the text between the first and second `'@'`
(JS indexing; `undefined` when there is no `'@'`).  A missing or empty
domain is falsy and rejected; otherwise the lower-cased domain must not be
on the blocklist. -/
def validateEmailDomain (email : String) : Bool :=
  match (jsSplitAux '@' email.toList).get? 1 with
  | none => false
  | some d =>
    if d.isEmpty then false
    else !((disposableDomains.map String.toList).contains (d.map Char.toLower))

/-- The request body of `POST /email-capture`; metadata is an association
list of its keys. -/
structure CaptureRequest where
  email : Option String
  source : Option String
  campaign : Option String
  metadata : Option (List (String × String))
deriving DecidableEq, Repr

/-- The value produced by a successful `emailSchema.validate(req.body)`:
`source` is defaulted to `"website"` (functions/index.js line 77). -/
structure JoiValue where
  email : String
  source : String
  campaign : Option String
  metadata : List (String × String)
deriving DecidableEq, Repr

/-- `emailSchema.validate` (functions/index.js lines 65-85): email required
with at most 254 characters and a shape accepted by Joi's email check
(modelled by the `emailShapeOk` oracle, since Joi's internal email grammar
is library code); `source`/`campaign` at most 100 characters; `metadata` at
most 10 keys.  Returns the validated value or `none` on a validation
error. -/
def joiValidate (emailShapeOk : String → Bool) (req : CaptureRequest) :
    Option JoiValue :=
  match req.email with
  | none => none
  | some em =>
    if emailShapeOk em && decide (em.length ≤ 254)
        && (match req.source with
            | some s => decide (s.length ≤ 100)
            | none => true)
        && (match req.campaign with
            | some c => decide (c.length ≤ 100)
            | none => true)
        && (match req.metadata with
            | some m => decide (m.length ≤ 10)
            | none => true) then
      some { email := em, source := req.source.getD "website",
             campaign := req.campaign, metadata := req.metadata.getD [] }
    else none

/-- A persisted lead document (the fields the endpoint reads or writes and
the claims mention; `ip`, `userAgent`, `referrer` and the server timestamps
are carried by the real document but never influence control flow). -/
structure Lead where
  email : String
  source : String
  campaign : Option String
  metadata : List (String × String)
  subscriptionCount : Nat
  status : String
  isNewDoc : Bool
deriving DecidableEq, Repr

/-- The JS spread `{...existingData.metadata, ...metadata}`: keys of the
update override keys of the existing record. -/
def mergeMeta (old upd : List (String × String)) : List (String × String) :=
  old.filter (fun kv => !(upd.any (fun kv2 => kv2.1 == kv.1))) ++ upd

/-- Replace the first element satisfying `p` (the document the dedup query
returned), leaving the rest unchanged. -/
def updateFirst {α : Type} (p : α → Bool) (g : α → α) : List α → List α
  | [] => []
  | a :: t => if p a then g a :: t else a :: updateFirst p g t

/-- The new lead document built on the fresh path (functions/index.js lines
183-199): `source || 'website'`, `campaign || null`, count 1, status
active, and the stored `isNew: true` flag. -/
def leadFor (v : JoiValue) (se : String) : Lead :=
  { email := se
    source := if v.source = "" then "website" else v.source
    campaign := match v.campaign with
      | some c => if c = "" then none else some c
      | none => none
    metadata := v.metadata
    subscriptionCount := 1
    status := "active"
    isNewDoc := true }

/-- The update applied to an existing lead (functions/index.js lines
222-229): increment the counter, `source || existingData.source`,
`campaign || existingData.campaign`, merge metadata, reactivate. -/
def dupUpdate (v : JoiValue) (l : Lead) : Lead :=
  { l with
    subscriptionCount := l.subscriptionCount + 1
    source := if v.source = "" then l.source else v.source
    campaign := match v.campaign with
      | some c => if c = "" then l.campaign else some c
      | none => l.campaign
    metadata := mergeMeta l.metadata v.metadata
    status := "active" }

/-- The JSON response of the endpoint: HTTP status, the `success` flag and
the `isNew` flag when present. -/
structure EndpointResponse where
  status : Nat
  success : Bool
  isNew : Option Bool
deriving DecidableEq, Repr

/-- One request's effect: the response, the lead store afterwards, the
analytics events the handler attempted to log (the `logAnalyticsEvent`
calls), and the analytics collection afterwards. -/
structure CaptureResult where
  response : EndpointResponse
  store : List Lead
  events : List String
  analytics : List String
deriving DecidableEq, Repr

/-- `logAnalyticsEvent(eventName, ...)` (functions/index.js lines 119-131):
the Firestore write succeeds unless `analyticsFails`; a failure is caught
inside the function, so control flow continues either way and only the
analytics collection is affected. -/
def logAnalyticsEvent (analyticsFails : Bool) (eventName : String)
    (a : List String) : List String :=
  if analyticsFails then a else a ++ [eventName]

/-- `app.post('/email-capture')` (functions/index.js lines 134-263), after
the rate-limiter middleware has admitted the request.  Oracles:
`emailShapeOk` is Joi's email grammar, `normalizeEmail` is
`validator.normalizeEmail` (returning `none` — JS `false` — or the
normalized address; an empty result is falsy and handled like `none`),
`dbThrows` makes the Firestore dedup query throw (exercising the `catch`
path), `analyticsFails` makes the analytics write fail. -/
def emailCapture (emailShapeOk : String → Bool)
    (normalizeEmail : String → Option String) (dbThrows analyticsFails : Bool)
    (req : CaptureRequest) (store : List Lead) (analytics : List String) :
    CaptureResult :=
  match joiValidate emailShapeOk req with
  | none =>
    { response := { status := 400, success := false, isNew := none }
      store := store
      events := ["email_capture_validation_error"]
      analytics :=
        logAnalyticsEvent analyticsFails "email_capture_validation_error" analytics }
  | some v =>
    match normalizeEmail v.email with
    | none =>
      { response := { status := 400, success := false, isNew := none }
        store := store, events := [], analytics := analytics }
    | some se =>
      if se = "" then
        { response := { status := 400, success := false, isNew := none }
          store := store, events := [], analytics := analytics }
      else if !(validateEmailDomain se) then
        { response := { status := 400, success := false, isNew := none }
          store := store
          events := ["email_capture_blocked_domain"]
          analytics :=
            logAnalyticsEvent analyticsFails "email_capture_blocked_domain" analytics }
      else if dbThrows then
        { response := { status := 500, success := false, isNew := none }
          store := store
          events := ["email_capture_error"]
          analytics :=
            logAnalyticsEvent analyticsFails "email_capture_error" analytics }
      else
        match store.find? (fun l => l.email == se) with
        | none =>
          { response := { status := 201, success := true, isNew := some true }
            store := store ++ [leadFor v se]
            events := ["email_capture_success"]
            analytics :=
              logAnalyticsEvent analyticsFails "email_capture_success" analytics }
        | some l =>
          { response := { status := 200, success := true, isNew := some false }
            store := updateFirst (fun x => x.email == se)
              (fun _ => dupUpdate v l) store
            events := ["email_capture_duplicate"]
            analytics :=
              logAnalyticsEvent analyticsFails "email_capture_duplicate" analytics }

lemma find?_append_of_none {α : Type} (p : α → Bool) (l₂ : List α) :
    ∀ l₁ : List α, l₁.find? p = none → (l₁ ++ l₂).find? p = l₂.find? p := by
  intro l₁
  induction l₁ with
  | nil => intro _; simp
  | cons a t ih =>
    intro h
    cases hpa : p a with
    | true =>
      rw [List.find?_cons_of_pos _ hpa] at h
      exact absurd h (by simp)
    | false =>
      rw [List.find?_cons_of_neg _ (by simp [hpa])] at h
      rw [List.cons_append, List.find?_cons_of_neg _ (by simp [hpa])]
      exact ih h

lemma updateFirst_append_of_none {α : Type} (p : α → Bool) (g : α → α) (x : α) :
    ∀ l₁ : List α, l₁.find? p = none →
      updateFirst p g (l₁ ++ [x]) = l₁ ++ updateFirst p g [x] := by
  intro l₁
  induction l₁ with
  | nil => intro _; simp
  | cons a t ih =>
    intro h
    cases hpa : p a with
    | true =>
      rw [List.find?_cons_of_pos _ hpa] at h
      exact absurd h (by simp)
    | false =>
      rw [List.find?_cons_of_neg _ (by simp [hpa])] at h
      have hstep : updateFirst p g ((a :: t) ++ [x]) = a :: updateFirst p g (t ++ [x]) := by
        simp [updateFirst, hpa]
      rw [hstep, ih h, List.cons_append]

/-- Claim C1: submitting the same normalized email twice against a store
that does not yet hold it — both requests passing schema validation,
normalization and the domain blocklist (the rate limiter admits the
requests before this handler runs) — yields HTTP 201 with `isNew = true`,
then HTTP 200 with `isNew = false`, and the stored lead's subscription
counter after the second request is its value after the first plus one. -/
theorem emailCapture_twice_dedup (emailShapeOk : String → Bool)
    (normalizeEmail : String → Option String) (analyticsFails : Bool)
    (req : CaptureRequest) (store : List Lead) (analytics : List String)
    (v : JoiValue) (se : String)
    (hjoi : joiValidate emailShapeOk req = some v)
    (hnorm : normalizeEmail v.email = some se)
    (hse : se ≠ "")
    (hdom : validateEmailDomain se = true)
    (hfresh : store.find? (fun l => l.email == se) = none) :
    (emailCapture emailShapeOk normalizeEmail false analyticsFails req store
        analytics).response
      = { status := 201, success := true, isNew := some true } ∧
    (emailCapture emailShapeOk normalizeEmail false analyticsFails req
        (emailCapture emailShapeOk normalizeEmail false analyticsFails req store
          analytics).store analytics).response
      = { status := 200, success := true, isNew := some false } ∧
    ∃ n : Nat,
      ((emailCapture emailShapeOk normalizeEmail false analyticsFails req store
          analytics).store.find? (fun l => l.email == se)).map
          (fun l => l.subscriptionCount) = some n ∧
      ((emailCapture emailShapeOk normalizeEmail false analyticsFails req
          (emailCapture emailShapeOk normalizeEmail false analyticsFails req store
            analytics).store analytics).store.find?
          (fun l => l.email == se)).map (fun l => l.subscriptionCount)
        = some (n + 1) := by
  have e1 : emailCapture emailShapeOk normalizeEmail false analyticsFails req
      store analytics
      = { response := { status := 201, success := true, isNew := some true }
          store := store ++ [leadFor v se]
          events := ["email_capture_success"]
          analytics :=
            logAnalyticsEvent analyticsFails "email_capture_success" analytics } := by
    simp [emailCapture, hjoi, hnorm, hse, hdom, hfresh]
  have e1s : (emailCapture emailShapeOk normalizeEmail false analyticsFails req
      store analytics).store = store ++ [leadFor v se] := by
    rw [e1]
  have hfind1 : (store ++ [leadFor v se]).find? (fun l => l.email == se)
      = some (leadFor v se) := by
    rw [find?_append_of_none _ _ _ hfresh]
    exact List.find?_cons_of_pos _ (by simp [leadFor])
  have e2 : emailCapture emailShapeOk normalizeEmail false analyticsFails req
      (store ++ [leadFor v se]) analytics
      = { response := { status := 200, success := true, isNew := some false }
          store := updateFirst (fun x => x.email == se)
            (fun _ => dupUpdate v (leadFor v se)) (store ++ [leadFor v se])
          events := ["email_capture_duplicate"]
          analytics :=
            logAnalyticsEvent analyticsFails "email_capture_duplicate" analytics } := by
    simp [emailCapture, hjoi, hnorm, hse, hdom, hfind1]
  have hs2 : (emailCapture emailShapeOk normalizeEmail false analyticsFails req
      (store ++ [leadFor v se]) analytics).store
      = store ++ [dupUpdate v (leadFor v se)] := by
    rw [e2]
    show updateFirst (fun x => x.email == se)
      (fun _ => dupUpdate v (leadFor v se)) (store ++ [leadFor v se])
      = store ++ [dupUpdate v (leadFor v se)]
    rw [updateFirst_append_of_none _ _ _ _ hfresh]
    simp [updateFirst, leadFor]
  refine ⟨by rw [e1], ?_, 1, ?_, ?_⟩
  · rw [e1s, e2]
  · rw [e1s, hfind1]
    simp [leadFor]
  · rw [e1s, hs2, find?_append_of_none _ _ _ hfresh,
      List.find?_cons_of_pos _ (by simp [dupUpdate, leadFor])]
    simp [dupUpdate, leadFor]

/-- A normalization oracle that returns the address unchanged. -/
def idNormalize : String → Option String := fun s => some s

/-- A Joi email-shape oracle that accepts everything. -/
def allShapeOk : String → Bool := fun _ => true

/-- The concrete request used by the endpoint witnesses. -/
def c1Req : CaptureRequest :=
  { email := some "a@b.com", source := none, campaign := none, metadata := none }

/-- The Joi value `c1Req` validates to. -/
def c1Val : JoiValue :=
  { email := "a@b.com", source := "website", campaign := none, metadata := [] }

/-- Witness for `emailCapture_twice_dedup`: the concrete request
`{email: "a@b.com"}` against an empty store gets 201/`isNew=true` then
200/`isNew=false`, with the counter going from 1 to 2. -/
theorem emailCapture_twice_dedup_witness :
    joiValidate allShapeOk c1Req = some c1Val ∧
    idNormalize c1Val.email = some "a@b.com" ∧
    "a@b.com" ≠ "" ∧
    validateEmailDomain "a@b.com" = true ∧
    List.find? (fun l => l.email == "a@b.com") ([] : List Lead) = none ∧
    ((emailCapture allShapeOk idNormalize false false c1Req [] []).response
        = { status := 201, success := true, isNew := some true } ∧
      (emailCapture allShapeOk idNormalize false false c1Req
          (emailCapture allShapeOk idNormalize false false c1Req [] []).store
          []).response
        = { status := 200, success := true, isNew := some false } ∧
      ∃ n : Nat,
        ((emailCapture allShapeOk idNormalize false false c1Req [] []).store.find?
            (fun l => l.email == "a@b.com")).map (fun l => l.subscriptionCount)
          = some n ∧
        ((emailCapture allShapeOk idNormalize false false c1Req
            (emailCapture allShapeOk idNormalize false false c1Req [] []).store
            []).store.find? (fun l => l.email == "a@b.com")).map
            (fun l => l.subscriptionCount) = some (n + 1)) := by
  refine ⟨by decide, rfl, by decide, by decide, rfl,
    emailCapture_twice_dedup allShapeOk idNormalize false c1Req [] [] c1Val
      "a@b.com" (by decide) rfl (by decide) (by decide) rfl⟩

lemma emailCapture_af_invariant (emailShapeOk : String → Bool)
    (normalizeEmail : String → Option String) (dt : Bool)
    (req : CaptureRequest) (store : List Lead) (analytics : List String)
    (af₁ af₂ : Bool) :
    (emailCapture emailShapeOk normalizeEmail dt af₁ req store analytics).response
      = (emailCapture emailShapeOk normalizeEmail dt af₂ req store analytics).response ∧
    (emailCapture emailShapeOk normalizeEmail dt af₁ req store analytics).store
      = (emailCapture emailShapeOk normalizeEmail dt af₂ req store analytics).store ∧
    (emailCapture emailShapeOk normalizeEmail dt af₁ req store analytics).events
      = (emailCapture emailShapeOk normalizeEmail dt af₂ req store analytics).events := by
  unfold emailCapture
  cases hj : joiValidate emailShapeOk req with
  | none => exact ⟨rfl, rfl, rfl⟩
  | some v =>
    dsimp only
    cases hn : normalizeEmail v.email with
    | none => exact ⟨rfl, rfl, rfl⟩
    | some se =>
      dsimp only
      by_cases hse : se = ""
      · simp [hse]
      · simp only [if_neg hse]
        by_cases hd : (!validateEmailDomain se) = true
        · simp [hd]
        · simp only [hd, if_false]
          cases dt with
          | true => simp
          | false =>
            simp only [Bool.false_eq_true, if_false]
            cases hf : store.find? (fun l => l.email == se) with
            | none => exact ⟨rfl, rfl, rfl⟩
            | some l => exact ⟨rfl, rfl, rfl⟩

/-- Claim C9: each endpoint outcome — schema-validation error, blocked
domain, success (new lead), duplicate, internal error — logs exactly its
analytics event, and a failing analytics write (caught inside
`logAnalyticsEvent`) never changes the response or the lead store. -/
theorem emailCapture_analytics (emailShapeOk : String → Bool)
    (normalizeEmail : String → Option String) (analyticsFails : Bool)
    (req : CaptureRequest) (store : List Lead) (analytics : List String) :
    (joiValidate emailShapeOk req = none →
      (emailCapture emailShapeOk normalizeEmail false analyticsFails req store
        analytics).events = ["email_capture_validation_error"]) ∧
    (∀ v se, joiValidate emailShapeOk req = some v →
      normalizeEmail v.email = some se → se ≠ "" →
      validateEmailDomain se = false →
      (emailCapture emailShapeOk normalizeEmail false analyticsFails req store
        analytics).events = ["email_capture_blocked_domain"]) ∧
    (∀ v se, joiValidate emailShapeOk req = some v →
      normalizeEmail v.email = some se → se ≠ "" →
      validateEmailDomain se = true →
      store.find? (fun l => l.email == se) = none →
      (emailCapture emailShapeOk normalizeEmail false analyticsFails req store
        analytics).events = ["email_capture_success"]) ∧
    (∀ v se l, joiValidate emailShapeOk req = some v →
      normalizeEmail v.email = some se → se ≠ "" →
      validateEmailDomain se = true →
      store.find? (fun x => x.email == se) = some l →
      (emailCapture emailShapeOk normalizeEmail false analyticsFails req store
        analytics).events = ["email_capture_duplicate"]) ∧
    (∀ v se, joiValidate emailShapeOk req = some v →
      normalizeEmail v.email = some se → se ≠ "" →
      validateEmailDomain se = true →
      (emailCapture emailShapeOk normalizeEmail true analyticsFails req store
        analytics).events = ["email_capture_error"]) ∧
    (∀ dt : Bool,
      (emailCapture emailShapeOk normalizeEmail dt true req store
        analytics).response
        = (emailCapture emailShapeOk normalizeEmail dt false req store
          analytics).response ∧
      (emailCapture emailShapeOk normalizeEmail dt true req store
        analytics).store
        = (emailCapture emailShapeOk normalizeEmail dt false req store
          analytics).store) := by
  refine ⟨fun hj => ?_, fun v se hj hn hse hd => ?_,
    fun v se hj hn hse hd hf => ?_, fun v se l hj hn hse hd hf => ?_,
    fun v se hj hn hse hd => ?_,
    fun dt =>
      ⟨(emailCapture_af_invariant emailShapeOk normalizeEmail dt req store
          analytics true false).1,
       (emailCapture_af_invariant emailShapeOk normalizeEmail dt req store
          analytics true false).2.1⟩⟩
  · simp [emailCapture, hj]
  · simp [emailCapture, hj, hn, hse, hd]
  · simp [emailCapture, hj, hn, hse, hd, hf]
  · simp [emailCapture, hj, hn, hse, hd, hf]
  · simp [emailCapture, hj, hn, hse, hd]

/-- A request carrying a blocklisted address. -/
def c9BlockedReq : CaptureRequest :=
  { email := some "a@mailinator.com", source := none, campaign := none,
    metadata := none }

/-- The Joi value `c9BlockedReq` validates to. -/
def c9BlockedVal : JoiValue :=
  { email := "a@mailinator.com", source := "website", campaign := none,
    metadata := [] }

/-- A request with no email field, failing schema validation. -/
def c9EmptyReq : CaptureRequest :=
  { email := none, source := none, campaign := none, metadata := none }

/-- Witness for `emailCapture_analytics`, exercising every branch at
concrete inputs: a missing email, a blocklisted domain, a fresh address, a
duplicate address, a throwing dedup query, and a failing analytics write
(which leaves the response and store unchanged). -/
theorem emailCapture_analytics_witness :
    (joiValidate allShapeOk c9EmptyReq = none ∧
      (emailCapture allShapeOk idNormalize false false c9EmptyReq [] []).events
        = ["email_capture_validation_error"]) ∧
    (joiValidate allShapeOk c9BlockedReq = some c9BlockedVal ∧
      idNormalize c9BlockedVal.email = some "a@mailinator.com" ∧
      "a@mailinator.com" ≠ "" ∧
      validateEmailDomain "a@mailinator.com" = false ∧
      (emailCapture allShapeOk idNormalize false false c9BlockedReq [] []).events
        = ["email_capture_blocked_domain"]) ∧
    (joiValidate allShapeOk c1Req = some c1Val ∧
      idNormalize c1Val.email = some "a@b.com" ∧
      "a@b.com" ≠ "" ∧
      validateEmailDomain "a@b.com" = true ∧
      List.find? (fun l => l.email == "a@b.com") ([] : List Lead) = none ∧
      (emailCapture allShapeOk idNormalize false false c1Req [] []).events
        = ["email_capture_success"]) ∧
    (List.find? (fun x => x.email == "a@b.com") [leadFor c1Val "a@b.com"]
        = some (leadFor c1Val "a@b.com") ∧
      (emailCapture allShapeOk idNormalize false false c1Req
        [leadFor c1Val "a@b.com"] []).events = ["email_capture_duplicate"]) ∧
    ((emailCapture allShapeOk idNormalize true false c1Req [] []).events
        = ["email_capture_error"]) ∧
    ((emailCapture allShapeOk idNormalize false true c1Req [] []).response
        = (emailCapture allShapeOk idNormalize false false c1Req [] []).response ∧
      (emailCapture allShapeOk idNormalize false true c1Req [] []).store
        = (emailCapture allShapeOk idNormalize false false c1Req [] []).store) := by
  refine ⟨⟨by decide, ?_⟩, ⟨by decide, rfl, by decide, by decide, ?_⟩,
    ⟨by decide, rfl, by decide, by decide, rfl, ?_⟩, ⟨by decide, ?_⟩, ?_, ?_⟩
  · exact (emailCapture_analytics allShapeOk idNormalize false c9EmptyReq [] []).1
      (by decide)
  · exact (emailCapture_analytics allShapeOk idNormalize false c9BlockedReq [] []).2.1
      c9BlockedVal "a@mailinator.com" (by decide) rfl (by decide) (by decide)
  · exact (emailCapture_analytics allShapeOk idNormalize false c1Req [] []).2.2.1
      c1Val "a@b.com" (by decide) rfl (by decide) (by decide) rfl
  · exact (emailCapture_analytics allShapeOk idNormalize false c1Req
      [leadFor c1Val "a@b.com"] []).2.2.2.1 c1Val "a@b.com"
      (leadFor c1Val "a@b.com") (by decide) rfl (by decide) (by decide) (by decide)
  · exact (emailCapture_analytics allShapeOk idNormalize false c1Req [] []).2.2.2.2.1
      c1Val "a@b.com" (by decide) rfl (by decide) (by decide)
  · exact (emailCapture_analytics allShapeOk idNormalize true c1Req [] []).2.2.2.2.2
      false
